import Mathlib

/-!
Verification development for the sourcing-assistant repository.

The definitions below are a shallow embedding of the data-reshaping core of
`src/update_google_sheet.py`: the price-tier filter, the SKU row builder, the
MOQ row filter, the row grouper, the identifier formula, and the utility
`try_convert_to_float`.  Python strings are Lean `String`s, Python numbers are
`Int`/`ℚ`, absent dictionary keys are `Option`, and fallible code returns
`Except`.  Every definition is annotated with the source lines it embeds.
-/

/-- A Python value as it flows through `try_convert_to_float`
(`update_google_sheet.py` lines 48-66): `none` is Python `None`, `str` a
string, `num` a number (idealised as a rational), `other` any value whose
`float(...)` conversion raises `TypeError` (list, dict, ...). -/
inductive PyVal where
  | none : PyVal
  | str : String → PyVal
  | num : ℚ → PyVal
  | other : PyVal
deriving DecidableEq

/-- Drop leading and trailing whitespace, as Python `str.strip()`. -/
def trimChars (cs : List Char) : List Char :=
  ((cs.dropWhile Char.isWhitespace).reverse.dropWhile Char.isWhitespace).reverse

/-- Numeric value of a digit string (most significant digit first). -/
def natOfDigits (cs : List Char) : Nat :=
  cs.foldl (fun a c => a * 10 + (c.toNat - 48)) 0

/-- Value (wrapped in `some`) of a non-empty all-digit character list, else `none`. -/
def digitsVal (cs : List Char) : Option Nat :=
  if cs.isEmpty then Option.none
  else if cs.all Char.isDigit then Option.some (natOfDigits cs)
  else Option.none

/-- Python `int(s)` on a string: optional surrounding whitespace, optional
sign, decimal digits; anything else raises `ValueError`, i.e. `none`. -/
def parsePyInt (s : String) : Option Int :=
  match trimChars s.toList with
  | '+' :: rest => (digitsVal rest).map Int.ofNat
  | '-' :: rest => (digitsVal rest).map (fun n => -(n : Int))
  | cs => (digitsVal cs).map Int.ofNat

/-- Magnitude of a decimal literal `digits [. digits]` with at least one
digit, as a rational (`mkRat m 10^k` is the exact value `m / 10^k`). -/
def decimalMag (cs : List Char) : Option ℚ :=
  let intPart := cs.takeWhile (fun c => c ≠ '.')
  match cs.dropWhile (fun c => c ≠ '.') with
  | [] => (digitsVal intPart).map (fun n => mkRat n 1)
  | '.' :: frac =>
    if (intPart ++ frac).isEmpty then Option.none
    else if (intPart.all Char.isDigit) && (frac.all Char.isDigit) then
      Option.some (mkRat (natOfDigits (intPart ++ frac)) (10 ^ frac.length))
    else Option.none
  | _ => Option.none

/-- Python `float(s)` on a string, restricted to the finite decimal fragment
the program feeds it: optional surrounding whitespace, optional sign, decimal
digits with an optional decimal point.  `none` models a raised `ValueError`. -/
def parsePyFloat (s : String) : Option ℚ :=
  match trimChars s.toList with
  | '+' :: rest => decimalMag rest
  | '-' :: rest => (decimalMag rest).map Neg.neg
  | cs => decimalMag cs

/-- The cleaning step of `try_convert_to_float` (line 60):
`value.strip().replace(yen, '').replace(dollar, '').replace(comma, '')`.
The first replaced literal is the yen currency sign `¥` (its UTF-8 bytes
appear Latin-1 round-tripped in some transcriptions of the file); replacing a
single-character substring by the empty string is removal of that character. -/
def cleanCurrency (s : String) : String :=
  String.mk ((trimChars s.toList).filter
    (fun c => !(c == '¥' || c == '$' || c == ',')))

/-- Embedding of `try_convert_to_float` (`update_google_sheet.py` lines
48-66).  `None` and the empty string map to the empty string; a string is
cleaned of currency symbols, commas and surrounding whitespace and parsed,
returning the original string when parsing fails; a number is returned as a
float; any other value makes `float(...)` raise `TypeError`, which is caught
and the original value returned. -/
def tryConvertToFloat (v : PyVal) : PyVal :=
  match v with
  | .none => .str ""
  | .str s =>
    if s = "" then .str ""
    else
      match parsePyFloat (cleanCurrency s) with
      | Option.some q => .num q
      | Option.none => .str s
  | .num q => .num q
  | .other => .other

/-- Round `n / d` (with `d > 0`) half to even, written with Euclidean
division so that `f` is the floor and `r / d` the fractional part. -/
def roundHalfEvenScaled (n : Int) (d : Nat) : Int :=
  let f := n.ediv d
  let r := n.emod d
  if 2 * r < d then f
  else if (d : Int) < 2 * r then f + 1
  else if f % 2 = 0 then f else f + 1

/-- Python `round(x, 1)` idealised over the rationals: round `x * 10` half to
even, then divide by 10 (`x * 10 = (num x * 10) / den x`). -/
def pyRound1 (q : ℚ) : ℚ :=
  mkRat (roundHalfEvenScaled (q.num * 10) q.den) 10

/-- Multiplication by the float literal `1.15`, whose idealised decimal value
is `23 / 20`; `q * 23 / 20 = (num q * 23) / (den q * 20)` exactly. -/
def mul115 (q : ℚ) : ℚ := mkRat (q.num * 23) (q.den * 20)

/-- Embedding of the customer-price computation (`update_google_sheet.py`
lines 645-646): `price_1688 = try_convert_to_float(v)` followed by
`price_cust = round(price_1688 * 1.15, 1) if price_1688 != '' else ''`.
When `try_convert_to_float` hands back a non-empty string (its fallback for
an unparseable value) or a non-numeric value, the multiplication by the float
`1.15` raises `TypeError`, modelled as `Except.error`. -/
def computeCustomerPrice (unitPrice : PyVal) : Except String PyVal :=
  let p := tryConvertToFloat unitPrice
  if p = .str "" then .ok (.str "")
  else
    match p with
    | .num q => .ok (.num (pyRound1 (mul115 q)))
    | _ => .error "TypeError"

deriving instance DecidableEq for Except

/-- One merge group produced by the grouping pass (`update_google_sheet.py`
lines 665-698): the batch-relative start index, the run length, and the
shared `moq` value.  The source also records `start_row`/`end_row`, which are
derived from these two fields. -/
structure MoqGroup where
  startIdx : Nat
  count : Nat
  moq : String
deriving DecidableEq

/-- The grouping loop state machine (`update_google_sheet.py` lines 667-697):
`cur` is `current_moq` (initially `None`), `cnt` is `current_count`, `st` is
`start_idx_in_batch`, `i` the index of the next row.  A group is flushed
whenever the moq changes, and once more after the loop. -/
def groupScan : List String → Option String → Nat → Nat → Nat → List MoqGroup
  | [], Option.none, _, _, _ => []
  | [], Option.some m, cnt, st, _ => [⟨st, cnt, m⟩]
  | x :: xs, cur, cnt, st, i =>
    if Option.some x ≠ cur then
      match cur with
      | Option.none => groupScan xs (Option.some x) 1 i (i + 1)
      | Option.some m => ⟨st, cnt, m⟩ :: groupScan xs (Option.some x) 1 i (i + 1)
    else groupScan xs cur (cnt + 1) st (i + 1)

/-- Embedding of the `price_moq_groups` construction (`update_google_sheet.py`
lines 665-698), applied to the sequence of `moq` column values of the rows
being appended. -/
def priceMoqGroups (moqs : List String) : List MoqGroup :=
  groupScan moqs Option.none 0 0 0

/-- A raw price tier as it arrives in `productSaleInfo.priceRangeList`
(`update_google_sheet.py` line 432): `startQuantity` may be missing
(`Option.none`, a `KeyError` in the source) or unparseable, `price` may be
missing. -/
structure RawTier where
  startQuantity : Option String
  price : Option String
deriving DecidableEq

/-- A tier whose `startQuantity` survived `int(...)` (lines 436-443). -/
structure PTier where
  startQuantity : Int
  price : Option String
deriving DecidableEq

/-- The parse step of lines 436-443: `int(tier['startQuantity'])`, dropping
the tier on `ValueError`/`TypeError`/`KeyError`. -/
def parseTier (t : RawTier) : Option PTier :=
  match t.startQuantity with
  | Option.none => Option.none
  | Option.some s => (parsePyInt s).map (fun n => ⟨n, t.price⟩)

/-- Stable insertion into a list sorted ascending by `startQuantity`: an
element inserted later is placed after earlier elements with an equal key,
matching the stability of Python `sorted` (line 445). -/
def insertTier (x : PTier) : List PTier → List PTier
  | [] => [x]
  | y :: ys =>
    if y.startQuantity ≤ x.startQuantity then y :: insertTier x ys
    else x :: y :: ys

/-- Python `sorted(tiers, key=startQuantity)` (line 445) as a stable sort. -/
def sortTiers (l : List PTier) : List PTier :=
  l.foldl (fun acc x => insertTier x acc) []

/-- The active-tier scan of lines 450-456: find the first tier `t` with
`t.startQuantity <= min_moq < next.startQuantity` (the next start being
`+inf` past the end) and return its `startQuantity`. -/
def findBand : List PTier → Int → Option Int
  | [], _ => Option.none
  | [t], m => if t.startQuantity ≤ m then Option.some t.startQuantity else Option.none
  | t :: u :: rest, m =>
    if t.startQuantity ≤ m ∧ m < u.startQuantity then Option.some t.startQuantity
    else findBand (u :: rest) m

/-- Embedding of `s_active` from lines 450-458: the band scan, then the permissive fallback
to the smallest tier when `min_moq` is below every `startQuantity`. -/
def sActive (l : List PTier) (m : Int) : Option Int :=
  match findBand l m with
  | Option.some s => Option.some s
  | Option.none =>
    match l with
    | [] => Option.none
    | t :: _ => if m < t.startQuantity then Option.some t.startQuantity else Option.none

/-- The `min_moq` stage of lines 448-465: keep the tiers with
`startQuantity >= s_active`, or everything when no minimum is given; when
`s_active` stays `None` the stage yields the empty list. -/
def minTierFilter : List PTier → Option Int → List PTier
  | l, Option.none => l
  | l, Option.some m =>
    match sActive l m with
    | Option.none => []
    | Option.some s => l.filter (fun t => decide (s ≤ t.startQuantity))

/-- The `max_moq` stage of lines 467-474: keep tiers with
`startQuantity <= max_moq` when a maximum is given. -/
def maxTierFilter : List PTier → Option Int → List PTier
  | l, Option.none => l
  | l, Option.some mx => l.filter (fun t => decide (t.startQuantity ≤ mx))

/-- The whole PriceTierFilter (`update_google_sheet.py` lines 430-474):
parse, sort, min stage, max stage. -/
def filterPriceTiers (raw : List RawTier) (minQ maxQ : Option Int) : List PTier :=
  maxTierFilter (minTierFilter (sortTiers (raw.filterMap parseTier)) minQ) maxQ

/-- The active tier as the specification words it: the largest
`startQuantity` that is `<= minQty` (the tier whose quantity band contains
`minQty`), and the smallest tier when `minQty` is below every tier. -/
def specActiveStart (l : List PTier) (m : Int) : Option Int :=
  match ((l.map (fun t => t.startQuantity)).filter (fun s => decide (s ≤ m))).max? with
  | Option.some s => Option.some s
  | Option.none => (l.map (fun t => t.startQuantity)).min?

/-- The specification's min stage: keep exactly the tiers with
`startQuantity >= active.startQuantity`. -/
def specKeptMin (l : List PTier) (m : Int) : List PTier :=
  match specActiveStart l m with
  | Option.none => []
  | Option.some s => l.filter (fun t => decide (s ≤ t.startQuantity))

/-- The specification's reading of the whole filter with a given minimum:
parse, sort, keep tiers at or above the active tier, then apply the maximum
bound. -/
def specFilterPriceTiers (raw : List RawTier) (m : Int) (maxQ : Option Int) : List PTier :=
  maxTierFilter (specKeptMin (sortTiers (raw.filterMap parseTier)) m) maxQ

/-- A tier as re-packed for row building (`update_google_sheet.py` lines
476-481): both fields already stringified (`moq` from `startQuantity`,
`price1688` from `price`). -/
structure TierOut where
  moq : String
  price1688 : String
deriving DecidableEq

/-- One attribute of a SKU (`skuAttributes` entries, lines 547-556):
`attributeId` is the `str(...)` of whatever the field holds, the name/value
pairs fall back through their `Trans` variants, `skuImageUrl` is optional. -/
structure SkuAttr where
  attributeId : String
  attributeNameTrans : Option String
  attributeName : Option String
  valueTrans : Option String
  value : Option String
  skuImageUrl : Option String
deriving DecidableEq

/-- One SKU (`product_sku_infos` entries): its attribute list and its
optional own price (`sku.get('price')`, line 561). -/
structure Sku where
  skuAttributes : List SkuAttr
  price : Option String
deriving DecidableEq

/-- The product document after the untyped-JSON lookups of lines 300-432
have resolved: each field is the value the algorithm actually consumes.
`minOrderQuantity` keeps its optionality because the source reads it with
default `"1"` at lines 206/503/537 but with default `''` at line 485;
`salePrice` is the stringified `productSaleInfo.price` of line 484;
`subjectStr` is the resolved `subjectTrans`/`subject` fallback; `link` is
the cleaned source URL. -/
structure ProductDoc where
  skus : List Sku
  rawTiers : List RawTier
  salePrice : String
  minOrderQuantity : Option String
  subjectStr : String
  mainImage : String
  productAttrs : List (String × String)
  link : String

/-- The tier fallback of lines 476-492: stringify the filtered tiers; if
none survived, fall back to the product-level direct price and
min-order-quantity when both are non-empty, else to a single sentinel tier
with empty fields. -/
def mkPriceTiersToProcess (filtered : List PTier) (salePrice minOrderQty : String) :
    List TierOut :=
  if filtered.isEmpty then
    if salePrice ≠ "" ∧ minOrderQty ≠ "" then [⟨minOrderQty, salePrice⟩]
    else [⟨"", ""⟩]
  else filtered.map (fun t => ⟨toString t.startQuantity, t.price.getD ""⟩)

/-- Computation of `price_tiers_to_process` for a document (lines 430-492). -/
def tiersToProcess (doc : ProductDoc) (minQ maxQ : Option Int) : List TierOut :=
  mkPriceTiersToProcess (filterPriceTiers doc.rawTiers minQ maxQ)
    doc.salePrice (doc.minOrderQuantity.getD "")

/-- Python `int(minOrderQuantity)` with dictionary default `"1"` and `ValueError`
fallback to 1 (lines 206-211, 503-508, 537-542). -/
def productDefaultMoq (minOrderQuantity : Option String) : Int :=
  (parsePyInt (minOrderQuantity.getD "1")).getD 1

/-- The HYPERLINK/IMAGE cell formula of lines 511, 559, 598: empty when the
url is empty. -/
def imageFormula (url : String) : String :=
  if url = "" then ""
  else "=HYPERLINK(\"" ++ url ++ "\", IMAGE(\"" ++ url ++ "\"))"

/-- The attribute name shown for a SKU attribute:
`attr.get('attributeNameTrans', attr.get('attributeName', 'N/A'))`. -/
def attrName (a : SkuAttr) : String :=
  a.attributeNameTrans.getD (a.attributeName.getD "N/A")

/-- The attribute value shown: `attr.get('valueTrans', attr.get('value', 'N/A'))`. -/
def attrValue (a : SkuAttr) : String :=
  a.valueTrans.getD (a.value.getD "N/A")

/-- The name-colon-value parts joined with `", "`, `"N/A"` when there are no
attributes (lines 548-558). -/
def skuInfoStr (attrs : List SkuAttr) : String :=
  if attrs.isEmpty then "N/A"
  else String.intercalate ", " (attrs.map (fun a => attrName a ++ ": " ++ attrValue a))

/-- The image chosen for a SKU: start from the main product image and let
every attribute with a truthy `skuImageUrl` overwrite it (lines 549-556). -/
def skuImageUrl (mainImage : String) (attrs : List SkuAttr) : String :=
  attrs.foldl
    (fun acc a =>
      match a.skuImageUrl with
      | Option.some u => if u ≠ "" then u else acc
      | Option.none => acc)
    mainImage

/-- Embedding of `get_material_info` (`update_google_sheet.py` lines
255-283): first SKU attribute with id `'287'` and a non-empty value wins
with source `"sku"`; else the product attribute dictionary entry `'287'`
(last writer wins, as in the dict built at lines 423-428) when non-empty,
with source `"product"`; else empty with source `"none"`. -/
def getMaterialInfo (productAttrs : List (String × String)) (skuAttrs : List SkuAttr) :
    String × String :=
  match skuAttrs.find? (fun a => a.attributeId == "287" && (a.valueTrans.getD (a.value.getD "")) ≠ "") with
  | Option.some a => (a.valueTrans.getD (a.value.getD ""), "sku")
  | Option.none =>
    match ((productAttrs.filter (fun p => p.1 == "287")).getLast?) with
    | Option.some p => if p.2 ≠ "" then (p.2, "product") else ("", "none")
    | Option.none => ("", "none")

/-- One output row as assembled at lines 523-531, 568-575 and 601-608 (the
id, customer price and profit columns are added later, in the second pass). -/
structure Row where
  image : String
  price1688 : String
  moq : String
  info : String
  material : String
  link : String
deriving DecidableEq

/-- The row emitted for a SKU with its own price (lines 568-575): the SKU's
price and the product default MOQ. -/
def directSkuRow (doc : ProductDoc) (sku : Sku) (p : String) : Row :=
  { image := imageFormula (skuImageUrl doc.mainImage sku.skuAttributes)
    price1688 := p
    moq := toString (productDefaultMoq doc.minOrderQuantity)
    info := skuInfoStr sku.skuAttributes
    material := (getMaterialInfo doc.productAttrs sku.skuAttributes).1
    link := doc.link }

/-- The fallback row for a (tier, SKU) pair (lines 584-609): the tier's
price and quantity with the SKU's image/attributes. -/
def tierSkuRow (doc : ProductDoc) (t : TierOut) (sku : Sku) : Row :=
  { image := imageFormula (skuImageUrl doc.mainImage sku.skuAttributes)
    price1688 := t.price1688
    moq := t.moq
    info := skuInfoStr sku.skuAttributes
    material := (getMaterialInfo doc.productAttrs sku.skuAttributes).1
    link := doc.link }

/-- The SKU row builder (`update_google_sheet.py` lines 534-611): a first
pass keeps one row per SKU that has its own price and skips the rest; when
that pass produced nothing and tiers exist, every SKU is repeated for every
tier. -/
def buildSkuRows (doc : ProductDoc) (tiers : List TierOut) : List Row :=
  let firstPass := doc.skus.filterMap
    (fun sku => (sku.price).map (fun p => directSkuRow doc sku p))
  if firstPass.isEmpty ∧ ¬tiers.isEmpty then
    tiers.flatMap (fun t => doc.skus.map (fun sku => tierSkuRow doc t sku))
  else firstPass

/-- The no-SKU row builder (lines 499-531): one row per processed tier using
product-level image, subject and material; nothing when there are no tiers
(the `if not price_tiers_to_process` error branch at line 513). -/
def buildProductRows (doc : ProductDoc) (tiers : List TierOut) : List Row :=
  if tiers.isEmpty then []
  else tiers.map (fun t =>
    { image := imageFormula doc.mainImage
      price1688 := t.price1688
      moq := t.moq
      info := doc.subjectStr
      material := (getMaterialInfo doc.productAttrs []).1
      link := doc.link })

/-- Assembly of `sku_data_final_rows` before MOQ filtering (lines 494-611): the no-SKU
path or the SKU path depending on whether any SKUs were found. -/
def assembleRows (doc : ProductDoc) (minQ maxQ : Option Int) : List Row :=
  if doc.skus.isEmpty then buildProductRows doc (tiersToProcess doc minQ maxQ)
  else buildSkuRows doc (tiersToProcess doc minQ maxQ)

/-- The effective quantity of one filtered item (`filter_skus_by_moq`, lines
215-227): its own `moq` entry when present and parseable as an int, else the
product default. -/
def effectiveMoq (moqField : Option String) (default : Int) : Int :=
  match moqField with
  | Option.none => default
  | Option.some s => (parsePyInt s).getD default

/-- Embedding of `filter_skus_by_moq` (`update_google_sheet.py` lines
196-253), generic in the item type with a `moq`-field accessor (the source
works on duck-typed dicts).  With no active filter the list is returned
unchanged; otherwise an item passes the minimum when its effective quantity
reaches `min_moq` or is below the 100-unit heuristic threshold, and passes
the maximum when its effective quantity does not exceed `max_moq`. -/
def filterSkusByMoq {α : Type} (moqOf : α → Option String) (items : List α)
    (minF maxF : Option Int) (productMinOrderQty : Option String) : List α :=
  if minF = Option.none ∧ maxF = Option.none then items
  else
    let default := productDefaultMoq productMinOrderQty
    items.filter (fun it =>
      let eff := effectiveMoq (moqOf it) default
      (match minF with
       | Option.none => true
       | Option.some m => decide (m ≤ eff) || decide (eff < 100)) &&
      (match maxF with
       | Option.none => true
       | Option.some mx => decide (eff ≤ mx)))

/-- State of `sku_data_final_rows` after the MOQ pass of lines 613-619. -/
def filteredRows (doc : ProductDoc) (minQ maxQ : Option Int) : List Row :=
  if minQ ≠ Option.none ∨ maxQ ≠ Option.none then
    filterSkusByMoq (fun r => Option.some r.moq) (assembleRows doc minQ maxQ)
      minQ maxQ doc.minOrderQuantity
  else assembleRows doc minQ maxQ

/-- The statistics dictionary returned by `process_and_upload_data` (lines
624-631 and 1010-1017). -/
structure Stats where
  rowsUploaded : Nat
  skusFound : Nat
  skusAfterFilter : Nat
  priceTiersCount : Nat
  error : Option String
deriving DecidableEq

/-- The message of the empty-after-filter return (lines 623, 630). -/
def noDataMsg : String :=
  "No SKUs found after filtering by MOQ or no initial product/SKU data."

/-- The outcome of `process_and_upload_data` for one product
(`update_google_sheet.py` lines 285-1017), restricted to the data path: when
filtering leaves no rows the distinct no-data result of lines 621-631 is
returned with zero counts; otherwise the success statistics of lines
1010-1017. -/
def processAndUploadData (doc : ProductDoc) (minQ maxQ : Option Int) : Stats :=
  let rows := filteredRows doc minQ maxQ
  if rows.isEmpty then
    { rowsUploaded := 0
      skusFound := doc.skus.length
      skusAfterFilter := 0
      priceTiersCount := (tiersToProcess doc minQ maxQ).length
      error := Option.some noDataMsg }
  else
    { rowsUploaded := rows.length
      skusFound := doc.skus.length
      skusAfterFilter := rows.length
      priceTiersCount := (tiersToProcess doc minQ maxQ).length
      error := Option.none }

/-- Embedding of `last_id_row` (`update_google_sheet.py` lines 385-409): scan the id
column backwards for the last entry whose stripped value is non-empty; that
row's 1-based sheet index (the first data row is row 2), or the header row 1
when every entry is blank. -/
def lastIdRow (colA : List String) : Nat :=
  match colA.reverse.findIdx? (fun s => !(String.mk (trimChars s.toList)).isEmpty) with
  | Option.some j => 2 + (colA.length - 1 - j)
  | Option.none => 1

/-- Spreadsheet `TEXT(n, "000")`: decimal digits zero-padded to at least three places. -/
def pad3 (n : Nat) : String :=
  if n < 10 then "00" ++ toString n
  else if n < 100 then "0" ++ toString n
  else toString n

/-- The id cell formula written for every appended row
(`update_google_sheet.py` line 649). -/
def idFormula (date ptype : String) : String :=
  "=\"" ++ date ++ "_" ++ ptype ++ "_\" & TEXT(ROW()-1,\"000\")"

/-- The value the formula of line 649 displays once the sheet evaluates it
at 1-based row `row`: `ROW()` is the absolute row number and
`TEXT(.., "000")` zero-pads to three digits. -/
def evalIdFormulaAtRow (date ptype : String) (row : Nat) : String :=
  date ++ "_" ++ ptype ++ "_" ++ pad3 (row - 1)

/-- The identifier the `i`-th appended row ends up displaying: rows are
appended starting at `last_id_row + 1` (line 704). -/
def appendedIdentifier (colA : List String) (date ptype : String) (i : Nat) : String :=
  evalIdFormulaAtRow date ptype (lastIdRow colA + 1 + i)

/-- Drop a prefix from a character list, `none` when it is not a prefix. -/
def dropPre : List Char → List Char → Option (List Char)
  | [], cs => Option.some cs
  | _, [] => Option.none
  | p :: ps, c :: cs => if p = c then dropPre ps cs else Option.none

/-- The claimed identifier scheme's suffix parser: an identifier matches the
`date_tag_NNN` pattern when it starts with `date ++ "_" ++ tag ++ "_"` and
the remainder is a non-empty digit string; the parsed counter is returned. -/
def idSuffix (date ptype ident : String) : Option Nat :=
  match dropPre (date ++ "_" ++ ptype ++ "_").toList ident.toList with
  | Option.none => Option.none
  | Option.some rest => digitsVal rest

/-- The identifier the claim says comes next: one more than the highest
counter among existing identifiers matching the pattern for this date and
tag, restarting at 1 when none matches. -/
def specNextIdentifier (existing : List String) (date ptype : String) : String :=
  let suffixes := existing.filterMap (fun s => idSuffix date ptype s)
  date ++ "_" ++ ptype ++ "_" ++ pad3 (suffixes.foldl max 0 + 1)

/-- The row count the C1 claim predicts for the SKU path: one row per
direct-price SKU plus one row per tier for every SKU without one. -/
def c1ClaimedCount (skus : List Sku) (tiers : List TierOut) : Nat :=
  skus.countP (fun s => s.price.isSome) +
    skus.countP (fun s => s.price.isNone) * tiers.length

lemma replicate_append_cons (cnt : Nat) (m : String) (xs : List String) :
    List.replicate cnt m ++ m :: xs = List.replicate (cnt + 1) m ++ xs := by
  rw [List.replicate_succ']
  simp

lemma groupScan_flatMap (xs : List String) : ∀ m cnt st i,
    (groupScan xs (Option.some m) cnt st i).flatMap
        (fun g => List.replicate g.count g.moq)
      = List.replicate cnt m ++ xs := by
  induction xs with
  | nil => intro m cnt st i; simp [groupScan]
  | cons x xs ih =>
    intro m cnt st i
    by_cases h : x = m
    · subst h
      rw [groupScan, if_neg (by simp)]
      rw [ih]
      exact (replicate_append_cons cnt x xs).symm
    · rw [groupScan, if_pos (by simp [h])]
      simp only [List.flatMap_cons, ih x 1 i (i + 1)]
      simp

lemma groupScan_chain_moq (xs : List String) : ∀ m cnt st i,
    List.Chain' (fun a b => a.moq ≠ b.moq) (groupScan xs (Option.some m) cnt st i)
      ∧ ∀ g ∈ (groupScan xs (Option.some m) cnt st i).head?, g.moq = m := by
  induction xs with
  | nil =>
    intro m cnt st i
    constructor
    · simp [groupScan]
    · intro g hg
      simp [groupScan] at hg
      rw [← hg]
  | cons x xs ih =>
    intro m cnt st i
    by_cases h : x = m
    · subst h
      rw [groupScan, if_neg (by simp)]
      exact ih x (cnt + 1) st (i + 1)
    · rw [groupScan, if_pos (by simp [h])]
      obtain ⟨hc, hh⟩ := ih x 1 i (i + 1)
      refine ⟨List.chain'_cons'.mpr ⟨?_, hc⟩, ?_⟩
      · intro b hb
        have := hh b hb
        simp [this]
        exact fun hm => h hm.symm
      · intro g hg
        simp at hg
        rw [← hg]

lemma groupScan_chain_start (xs : List String) : ∀ m cnt st,
    List.Chain' (fun a b => b.startIdx = a.startIdx + a.count)
        (groupScan xs (Option.some m) cnt st (st + cnt))
      ∧ ∀ g ∈ (groupScan xs (Option.some m) cnt st (st + cnt)).head?,
          g.startIdx = st := by
  induction xs with
  | nil =>
    intro m cnt st
    constructor
    · simp [groupScan]
    · intro g hg
      simp [groupScan] at hg
      rw [← hg]
  | cons x xs ih =>
    intro m cnt st
    by_cases h : x = m
    · subst h
      rw [groupScan, if_neg (by simp)]
      rw [Nat.add_assoc]
      exact ih x (cnt + 1) st
    · rw [groupScan, if_pos (by simp [h])]
      obtain ⟨hc, hh⟩ := ih x 1 (st + cnt)
      refine ⟨List.chain'_cons'.mpr ⟨?_, hc⟩, ?_⟩
      · intro b hb
        simpa using hh b hb
      · intro g hg
        simp at hg
        rw [← hg]

lemma groupScan_count_pos (xs : List String) : ∀ m cnt st i, 1 ≤ cnt →
    ∀ g ∈ groupScan xs (Option.some m) cnt st i, 1 ≤ g.count := by
  induction xs with
  | nil =>
    intro m cnt st i hcnt g hg
    simp [groupScan] at hg
    simp [hg, hcnt]
  | cons x xs ih =>
    intro m cnt st i hcnt g hg
    by_cases h : x = m
    · subst h
      rw [groupScan, if_neg (by simp)] at hg
      exact ih x (cnt + 1) st (i + 1) (by omega) g hg
    · rw [groupScan, if_pos (by simp [h])] at hg
      rcases List.mem_cons.mp hg with hg | hg
      · simp [hg, hcnt]
      · exact ih x 1 i (i + 1) (by omega) g hg

/-- C8: the row grouper partitions the row sequence into maximal contiguous
runs of equal `orderQuantity`: concatenating each group's run reconstructs
the sequence, adjacent groups carry different quantities, each group's start
index is the previous start plus the previous count beginning at zero, every
count is positive, and the quantities `[100,100,500,500,500,1000]` produce
exactly the groups `(0,2,100)`, `(2,3,500)`, `(5,1,1000)`. -/
theorem c8_row_grouper : ∀ moqs : List String,
    ((priceMoqGroups moqs).flatMap (fun g => List.replicate g.count g.moq) = moqs)
    ∧ List.Chain' (fun a b => a.moq ≠ b.moq) (priceMoqGroups moqs)
    ∧ List.Chain' (fun a b => b.startIdx = a.startIdx + a.count) (priceMoqGroups moqs)
    ∧ (((priceMoqGroups moqs).head?.map (fun g => g.startIdx)).getD 0 = 0)
    ∧ ((priceMoqGroups moqs).all (fun g => decide (1 ≤ g.count)) = true)
    ∧ priceMoqGroups ["100", "100", "500", "500", "500", "1000"]
        = [⟨0, 2, "100"⟩, ⟨2, 3, "500"⟩, ⟨5, 1, "1000"⟩] := by
  intro moqs
  match moqs with
  | [] => exact ⟨by decide, by decide, by decide, by decide, by decide, by decide⟩
  | x :: xs =>
    have hrw : priceMoqGroups (x :: xs) = groupScan xs (Option.some x) 1 0 1 := by
      rw [priceMoqGroups, groupScan, if_pos (by simp)]
    refine ⟨?_, ?_, ?_, ?_, ?_, by decide⟩
    · rw [hrw, groupScan_flatMap]
      simp
    · rw [hrw]
      exact (groupScan_chain_moq xs x 1 0 1).1
    · rw [hrw]
      exact (groupScan_chain_start xs x 1 0).1
    · rw [hrw]
      cases hh : (groupScan xs (Option.some x) 1 0 1).head? with
      | none => simp
      | some g =>
        have := (groupScan_chain_start xs x 1 0).2 g (by simpa using hh)
        simp [this]
    · rw [hrw]
      rw [List.all_eq_true]
      intro g hg
      simpa using groupScan_count_pos xs x 1 0 1 (by omega) g hg

/-- C5 (code bug): the customer price is `round(unitPrice * 1.15, 1)` when
the unit price parses (`"10.00"` gives `11.5`) and empty when the unit price
is the empty string, but a non-empty unparseable unit price such as `"abc"`
does not give an empty customer price: `try_convert_to_float` returns the
original string, the `!= ''` guard passes it, and the multiplication by the
float `1.15` raises `TypeError`. -/
theorem c5_customer_price_code_bug :
    computeCustomerPrice (.str "10.00") = .ok (.num (mkRat 23 2))
    ∧ computeCustomerPrice (.str "") = .ok (.str "")
    ∧ computeCustomerPrice (.str "abc") = .error "TypeError" :=
  ⟨by decide, by decide, by decide⟩

/-- C10: `try_convert_to_float` is total: `None` and the empty string give
the empty string, a string whose currency-cleaned form parses as a number
gives that number as a float, any other string comes back unchanged, a
number comes back as a float, and a non-convertible value comes back
unchanged with the `TypeError` caught — no input raises. -/
theorem c10_try_convert_total :
    (tryConvertToFloat PyVal.none = .str "" ∧ tryConvertToFloat (.str "") = .str "")
    ∧ (∀ s q, s ≠ "" → parsePyFloat (cleanCurrency s) = Option.some q →
        tryConvertToFloat (.str s) = .num q)
    ∧ (∀ s, s ≠ "" → parsePyFloat (cleanCurrency s) = Option.none →
        tryConvertToFloat (.str s) = .str s)
    ∧ (∀ q, tryConvertToFloat (.num q) = .num q)
    ∧ tryConvertToFloat .other = .other := by
  refine ⟨⟨rfl, rfl⟩, ?_, ?_, fun q => rfl, rfl⟩
  · intro s q hs hp
    simp [tryConvertToFloat, hs, hp]
  · intro s hs hp
    simp [tryConvertToFloat, hs, hp]

/-- Witness for C10 at concrete inputs: the currency-cleaned `"¥1,234.5"`
parses and is converted, while `"abc"` does not parse and is returned
unchanged. -/
theorem c10_try_convert_total_witness :
    (("¥1,234.5" : String) ≠ ""
      ∧ parsePyFloat (cleanCurrency "¥1,234.5") = Option.some (mkRat 12345 10)
      ∧ tryConvertToFloat (.str "¥1,234.5") = .num (mkRat 12345 10))
    ∧ (("abc" : String) ≠ ""
      ∧ parsePyFloat (cleanCurrency "abc") = Option.none
      ∧ tryConvertToFloat (.str "abc") = .str "abc") :=
  ⟨⟨by decide, by decide,
      c10_try_convert_total.2.1 "¥1,234.5" (mkRat 12345 10) (by decide) (by decide)⟩,
    ⟨by decide, by decide,
      c10_try_convert_total.2.2.1 "abc" (by decide) (by decide)⟩⟩

/-- C2 (counterexample): identifiers are not scoped to (date, tag).  With
existing column entries `20240101_abc_001` and `20240101_abc_002`, the first
row appended for the different tag `xyz` displays `20240101_xyz_003` — the
formula of line 649 continues from the sheet row number — whereas the claim
requires numbering to restart at `20240101_xyz_001` because no existing
identifier matches the `date_tag_NNN` pattern for tag `xyz`. -/
theorem c2_identifier_restart_cex :
    appendedIdentifier ["20240101_abc_001", "20240101_abc_002"] "20240101" "xyz" 0
      = "20240101_xyz_003"
    ∧ specNextIdentifier ["20240101_abc_001", "20240101_abc_002"] "20240101" "xyz"
      = "20240101_xyz_001"
    ∧ ("20240101_xyz_003" : String) ≠ "20240101_xyz_001" :=
  ⟨by decide, by decide, by decide⟩

/-- C2 (amended): the row identifier is produced by the sheet formula
`="date_tag_" & TEXT(ROW()-1,"000")`, so its zero-padded counter is the
absolute sheet row number minus one.  When the existing id column holds `n`
non-blank entries, the `i`-th appended row displays the counter `n + 1 + i`,
for every date and tag alike: numbering continues across tags and dates and
never restarts from a per-tag scan. -/
theorem c2_identifier_rownumber_amended :
    ∀ (existing : List String) (date ptype : String) (i : Nat),
      (∀ s ∈ existing, (String.mk (trimChars s.toList)).isEmpty = false) →
      appendedIdentifier existing date ptype i
        = date ++ "_" ++ ptype ++ "_" ++ pad3 (existing.length + 1 + i) := by
  intro existing date ptype i hne
  have hlast : lastIdRow existing = existing.length + 1 := by
    match hrev : existing.reverse with
    | [] =>
      have : existing = [] := by
        have := congrArg List.reverse hrev
        simpa using this
      subst this
      simp [lastIdRow]
    | a :: as =>
      have ha : a ∈ existing := by
        have : a ∈ existing.reverse := by rw [hrev]; exact List.mem_cons_self a as
        exact List.mem_reverse.mp this
      have hpa : (!(String.mk (trimChars a.toList)).isEmpty) = true := by
        rw [hne a ha]
        rfl
      have hlen : existing.length = as.length + 1 := by
        have := congrArg List.length hrev
        simpa using this
      rw [lastIdRow, hrev, List.findIdx?_cons, hpa]
      simp [hlen]
      omega
  rw [appendedIdentifier, evalIdFormulaAtRow, hlast]
  congr 2
  omega

/-- Witness for C2's amended theorem: two non-blank existing entries put the
first appended identifier at counter `003`. -/
theorem c2_identifier_rownumber_amended_witness :
    (∀ s ∈ (["id1", "id2"] : List String),
        (String.mk (trimChars s.toList)).isEmpty = false)
    ∧ appendedIdentifier ["id1", "id2"] "20240101" "abc" 0
        = "20240101" ++ "_" ++ "abc" ++ "_" ++ pad3 (["id1", "id2"].length + 1 + 0) :=
  ⟨by decide, c2_identifier_rownumber_amended ["id1", "id2"] "20240101" "abc" 0 (by decide)⟩

/-- C7: membership in the MOQ row filter output is exactly membership in the
input together with the claim's pass conditions — with a minimum given, the
effective quantity (own parseable `moq`, else the product default) must reach
the minimum or lie under the 100-unit heuristic threshold; with a maximum
given it must not exceed the maximum; with no filter given everything
passes. -/
theorem c7_moq_row_filter {α : Type} (moqOf : α → Option String) (items : List α)
    (minF maxF : Option Int) (pstr : Option String) (x : α) :
    x ∈ filterSkusByMoq moqOf items minF maxF pstr ↔
      x ∈ items
      ∧ (∀ m ∈ minF, m ≤ effectiveMoq (moqOf x) (productDefaultMoq pstr)
          ∨ effectiveMoq (moqOf x) (productDefaultMoq pstr) < 100)
      ∧ (∀ mx ∈ maxF, effectiveMoq (moqOf x) (productDefaultMoq pstr) ≤ mx) := by
  by_cases hb : minF = Option.none ∧ maxF = Option.none
  · obtain ⟨h1, h2⟩ := hb
    subst h1
    subst h2
    simp [filterSkusByMoq]
  · rw [filterSkusByMoq, if_neg hb, List.mem_filter]
    cases minF with
    | none =>
      cases maxF with
      | none => exact absurd ⟨rfl, rfl⟩ hb
      | some mx => simp
    | some m =>
      cases maxF with
      | none => simp
      | some mx => simp

/-- C9: when MOQ filtering leaves no rows, processing returns the distinct
no-data outcome with zero uploaded rows, zero SKUs after filter, and the
counts of SKUs and price tiers found; when rows survive, the outcome carries
no error and reports the surviving row count. -/
theorem c9_no_data_outcome :
    ∀ (doc : ProductDoc) (minQ maxQ : Option Int),
      (filteredRows doc minQ maxQ = [] →
        processAndUploadData doc minQ maxQ =
          { rowsUploaded := 0, skusFound := doc.skus.length, skusAfterFilter := 0,
            priceTiersCount := (tiersToProcess doc minQ maxQ).length,
            error := Option.some noDataMsg })
      ∧ (filteredRows doc minQ maxQ ≠ [] →
          (processAndUploadData doc minQ maxQ).error = Option.none
          ∧ (processAndUploadData doc minQ maxQ).rowsUploaded
              = (filteredRows doc minQ maxQ).length) := by
  intro doc minQ maxQ
  constructor
  · intro h
    simp [processAndUploadData, h]
  · intro h
    rw [processAndUploadData]
    rw [if_neg (by simpa [List.isEmpty_iff] using h)]
    exact ⟨rfl, rfl⟩

/-- Witness for C9: an SKU-less product whose only (fallback) tier carries
MOQ 150 is emptied by a minimum filter of 200, and the pipeline reports the
no-data outcome with the tier counted. -/
theorem c9_no_data_outcome_witness :
    filteredRows ⟨[], [], "9", Option.some "150", "s", "", [], "L"⟩
        (Option.some 200) Option.none = []
    ∧ processAndUploadData ⟨[], [], "9", Option.some "150", "s", "", [], "L"⟩
        (Option.some 200) Option.none =
      { rowsUploaded := 0, skusFound := 0, skusAfterFilter := 0,
        priceTiersCount := 1, error := Option.some noDataMsg } :=
  ⟨by decide,
    (c9_no_data_outcome ⟨[], [], "9", Option.some "150", "s", "", [], "L"⟩
        (Option.some 200) Option.none).1 (by decide)⟩

lemma filterPriceTiers_of_no_parse (raw : List RawTier) (minQ maxQ : Option Int)
    (h : raw.filterMap parseTier = []) : filterPriceTiers raw minQ maxQ = [] := by
  rw [filterPriceTiers, h]
  cases minQ <;> cases maxQ <;>
    simp [sortTiers, minTierFilter, maxTierFilter, sActive, findBand]

/-- C6: a successfully fetched product with no SKUs, no parseable tier, and
no usable product-level direct-price/MOQ fallback still yields exactly one
assembled row, whose price and quantity fields are empty — the sentinel tier
of line 491. -/
theorem c6_sentinel_row :
    ∀ (doc : ProductDoc) (minQ maxQ : Option Int),
      doc.skus = [] →
      doc.rawTiers.filterMap parseTier = [] →
      (doc.salePrice = "" ∨ doc.minOrderQuantity.getD "" = "") →
      (assembleRows doc minQ maxQ).length = 1
      ∧ ∀ r ∈ assembleRows doc minQ maxQ, r.price1688 = "" ∧ r.moq = "" := by
  intro doc minQ maxQ hsku htier hfb
  have htp : tiersToProcess doc minQ maxQ = [⟨"", ""⟩] := by
    rw [tiersToProcess, filterPriceTiers_of_no_parse doc.rawTiers minQ maxQ htier]
    rw [mkPriceTiersToProcess]
    rw [if_pos (by rfl)]
    rw [if_neg (by tauto)]
  have hrows : assembleRows doc minQ maxQ
      = buildProductRows doc [⟨"", ""⟩] := by
    rw [assembleRows, if_pos (by simp [hsku]), htp]
  rw [hrows]
  constructor
  · rfl
  · intro r hr
    simp [buildProductRows] at hr
    rw [hr]
    exact ⟨rfl, rfl⟩

/-- Witness for C6: a concrete document with no SKUs, one unparseable tier
and an empty product-level price yields the single empty-field row. -/
theorem c6_sentinel_row_witness :
    ((⟨[], [⟨Option.some "x", Option.some "5"⟩], "", Option.some "1", "s", "", [], "L"⟩ :
        ProductDoc).skus = []
      ∧ ((⟨[], [⟨Option.some "x", Option.some "5"⟩], "", Option.some "1", "s", "", [], "L"⟩ :
        ProductDoc).rawTiers.filterMap parseTier = []))
    ∧ (assembleRows
        ⟨[], [⟨Option.some "x", Option.some "5"⟩], "", Option.some "1", "s", "", [], "L"⟩
        (Option.some 120) Option.none).length = 1
    ∧ ∀ r ∈ assembleRows
          ⟨[], [⟨Option.some "x", Option.some "5"⟩], "", Option.some "1", "s", "", [], "L"⟩
          (Option.some 120) Option.none, r.price1688 = "" ∧ r.moq = "" :=
  ⟨⟨by decide, by decide⟩,
    c6_sentinel_row
      ⟨[], [⟨Option.some "x", Option.some "5"⟩], "", Option.some "1", "s", "", [], "L"⟩
      (Option.some 120) Option.none (by decide) (by decide) (Or.inl (by decide))⟩

/-- C1 (counterexample): with one SKU carrying its own price and one SKU
without, over one available tier, the builder emits a single row — the
priceless SKU is skipped (line 564) — while the claim predicts one row for
the priced SKU plus one row per tier for the priceless SKU, i.e. two rows. -/
theorem c1_direct_price_fanout_cex :
    (buildSkuRows
        ⟨[⟨[], Option.some "5"⟩, ⟨[], Option.none⟩], [], "", Option.none, "subj", "", [], "L"⟩
        [⟨"100", "3"⟩]).length = 1
    ∧ c1ClaimedCount [⟨[], Option.some "5"⟩, ⟨[], Option.none⟩] [⟨"100", "3"⟩] = 2
    ∧ (1 : Nat) ≠ 2 :=
  ⟨by decide, by decide, by decide⟩

lemma filterMap_price_rows (doc : ProductDoc) (skus : List Sku) :
    skus.filterMap (fun s => (s.price).map (fun p => directSkuRow doc s p))
      = (skus.filter (fun s => s.price.isSome)).map
          (fun s => directSkuRow doc s (s.price.getD "")) := by
  induction skus with
  | nil => rfl
  | cons s rest ih => cases hp : s.price <;> simp [List.filterMap_cons, hp, ih]

/-- C1 (amended): when at least one SKU has its own price, the builder emits
exactly one row per priced SKU (price = the SKU's own price, quantity = the
product default MOQ) and no row for SKUs without one; only when no SKU has a
price and tiers exist does it emit one row per (tier, SKU) pair with the
tier's price and quantity. -/
theorem c1_sku_row_builder_amended :
    ∀ (doc : ProductDoc) (tiers : List TierOut),
      (doc.skus.any (fun s => s.price.isSome) = true →
        buildSkuRows doc tiers
          = (doc.skus.filter (fun s => s.price.isSome)).map
              (fun s => directSkuRow doc s (s.price.getD ""))
        ∧ (buildSkuRows doc tiers).length
            = doc.skus.countP (fun s => s.price.isSome))
      ∧ ((∀ s ∈ doc.skus, s.price = Option.none) → tiers ≠ [] →
        buildSkuRows doc tiers
          = tiers.flatMap (fun t => doc.skus.map (fun s => tierSkuRow doc t s))
        ∧ (buildSkuRows doc tiers).length = tiers.length * doc.skus.length)
      ∧ (∀ s p, (directSkuRow doc s p).price1688 = p
          ∧ (directSkuRow doc s p).moq
              = toString (productDefaultMoq doc.minOrderQuantity))
      ∧ (∀ t s, (tierSkuRow doc t s).price1688 = t.price1688
          ∧ (tierSkuRow doc t s).moq = t.moq) := by
  intro doc tiers
  refine ⟨?_, ?_, fun s p => ⟨rfl, rfl⟩, fun t s => ⟨rfl, rfl⟩⟩
  · intro hany
    have hne : ¬(doc.skus.filterMap
        (fun s => (s.price).map (fun p => directSkuRow doc s p))).isEmpty = true := by
      rw [filterMap_price_rows]
      obtain ⟨s, hs, hp⟩ := List.any_eq_true.mp hany
      simp [List.isEmpty_iff, List.filter_eq_nil_iff]
      exact ⟨s, hs, by simp [Option.isSome_iff_ne_none.mp hp]⟩
    have hbuild : buildSkuRows doc tiers
        = (doc.skus.filter (fun s => s.price.isSome)).map
            (fun s => directSkuRow doc s (s.price.getD "")) := by
      rw [buildSkuRows, if_neg (by intro hc; exact hne (by simp [hc.1]))]
      exact filterMap_price_rows doc doc.skus
    refine ⟨hbuild, ?_⟩
    rw [hbuild, List.length_map, List.countP_eq_length_filter]
  · intro hnone htiers
    have hfp : doc.skus.filterMap
        (fun s => (s.price).map (fun p => directSkuRow doc s p)) = [] := by
      rw [List.filterMap_eq_nil_iff]
      intro s hs
      rw [hnone s hs]
      rfl
    have hbuild : buildSkuRows doc tiers
        = tiers.flatMap (fun t => doc.skus.map (fun s => tierSkuRow doc t s)) := by
      rw [buildSkuRows]
      rw [if_pos ⟨by simp [hfp], by simpa [List.isEmpty_iff] using htiers⟩]
    refine ⟨hbuild, ?_⟩
    rw [hbuild]
    simp [List.length_flatMap, Function.comp_def, Nat.mul_comm]

/-- Witness for C1's amended theorem: one priceless SKU and one tier make
the builder emit the single (tier, SKU) cross-product row. -/
theorem c1_sku_row_builder_amended_witness :
    ((∀ s ∈ (⟨[⟨[], Option.none⟩], [], "", Option.none, "subj", "", [], "L"⟩ :
          ProductDoc).skus, s.price = Option.none)
      ∧ ([⟨"100", "3"⟩] : List TierOut) ≠ [])
    ∧ (buildSkuRows
          ⟨[⟨[], Option.none⟩], [], "", Option.none, "subj", "", [], "L"⟩ [⟨"100", "3"⟩]
        = ([⟨"100", "3"⟩] : List TierOut).flatMap
            (fun t => (⟨[⟨[], Option.none⟩], [], "", Option.none, "subj", "", [], "L"⟩ :
                ProductDoc).skus.map
              (fun s => tierSkuRow
                ⟨[⟨[], Option.none⟩], [], "", Option.none, "subj", "", [], "L"⟩ t s))
      ∧ (buildSkuRows
          ⟨[⟨[], Option.none⟩], [], "", Option.none, "subj", "", [], "L"⟩
          [⟨"100", "3"⟩]).length
        = ([⟨"100", "3"⟩] : List TierOut).length
            * (⟨[⟨[], Option.none⟩], [], "", Option.none, "subj", "", [], "L"⟩ :
                ProductDoc).skus.length) :=
  ⟨⟨by decide, by decide⟩,
    (c1_sku_row_builder_amended
        ⟨[⟨[], Option.none⟩], [], "", Option.none, "subj", "", [], "L"⟩
        [⟨"100", "3"⟩]).2.1 (by decide) (by decide)⟩

lemma insertTier_perm (x : PTier) (l : List PTier) : (insertTier x l).Perm (x :: l) := by
  induction l with
  | nil => exact List.Perm.refl _
  | cons y ys ih =>
    rw [insertTier]
    by_cases h : y.startQuantity ≤ x.startQuantity
    · rw [if_pos h]
      exact (List.Perm.cons y ih).trans (List.Perm.swap x y ys)
    · rw [if_neg h]

lemma foldl_insertTier_perm : ∀ (l acc : List PTier),
    (l.foldl (fun a x => insertTier x a) acc).Perm (l ++ acc) := by
  intro l
  induction l with
  | nil => intro acc; simp
  | cons x xs ih =>
    intro acc
    rw [List.foldl_cons]
    have h1 := ih (insertTier x acc)
    have h2 : (xs ++ insertTier x acc).Perm (xs ++ (x :: acc)) :=
      List.Perm.append_left xs (insertTier_perm x acc)
    have h3 : (xs ++ (x :: acc)).Perm (x :: (xs ++ acc)) := List.perm_middle
    exact (h1.trans h2).trans h3

lemma sortTiers_perm (l : List PTier) : (sortTiers l).Perm l := by
  have := foldl_insertTier_perm l []
  simpa [sortTiers] using this

lemma insertTier_sorted {x : PTier} {l : List PTier}
    (h : l.Pairwise (fun a b => a.startQuantity ≤ b.startQuantity)) :
    (insertTier x l).Pairwise (fun a b => a.startQuantity ≤ b.startQuantity) := by
  induction l with
  | nil => simp [insertTier]
  | cons y ys ih =>
    rw [List.pairwise_cons] at h
    rw [insertTier]
    by_cases hc : y.startQuantity ≤ x.startQuantity
    · rw [if_pos hc]
      rw [List.pairwise_cons]
      refine ⟨?_, ih h.2⟩
      intro b hb
      have hb2 : b ∈ x :: ys := (insertTier_perm x ys).mem_iff.mp hb
      rcases List.mem_cons.mp hb2 with hb2 | hb2
      · rw [hb2]; exact hc
      · exact h.1 b hb2
    · rw [if_neg hc]
      have hxy : x.startQuantity ≤ y.startQuantity := le_of_not_le hc
      rw [List.pairwise_cons]
      refine ⟨?_, List.pairwise_cons.mpr h⟩
      intro b hb
      rcases List.mem_cons.mp hb with hb | hb
      · rw [hb]; exact hxy
      · exact hxy.trans (h.1 b hb)

lemma foldl_insertTier_sorted : ∀ (l acc : List PTier),
    acc.Pairwise (fun a b => a.startQuantity ≤ b.startQuantity) →
    (l.foldl (fun a x => insertTier x a) acc).Pairwise
      (fun a b => a.startQuantity ≤ b.startQuantity) := by
  intro l
  induction l with
  | nil => intro acc h; simpa using h
  | cons x xs ih =>
    intro acc h
    rw [List.foldl_cons]
    exact ih _ (insertTier_sorted h)

lemma sortTiers_sorted (l : List PTier) :
    (sortTiers l).Pairwise (fun a b => a.startQuantity ≤ b.startQuantity) :=
  foldl_insertTier_sorted l [] (List.Pairwise.nil)

lemma minTierFilter_sublist (l : List PTier) (minQ : Option Int) :
    (minTierFilter l minQ).Sublist l := by
  cases minQ with
  | none => exact List.Sublist.refl l
  | some m =>
    rw [minTierFilter]
    cases sActive l m with
    | none => exact List.nil_sublist l
    | some s => exact List.filter_sublist l

lemma maxTierFilter_sublist (l : List PTier) (maxQ : Option Int) :
    (maxTierFilter l maxQ).Sublist l := by
  cases maxQ with
  | none => exact List.Sublist.refl l
  | some mx => exact List.filter_sublist l

lemma filterPriceTiers_sublist_sorted (raw : List RawTier) (minQ maxQ : Option Int) :
    (filterPriceTiers raw minQ maxQ).Sublist (sortTiers (raw.filterMap parseTier)) := by
  rw [filterPriceTiers]
  exact (maxTierFilter_sublist _ maxQ).trans (minTierFilter_sublist _ minQ)

lemma findBand_none_of_all_gt : ∀ (l : List PTier) (m : Int),
    (∀ t ∈ l, m < t.startQuantity) → findBand l m = Option.none := by
  intro l
  induction l with
  | nil => intro m _; rfl
  | cons t l ih =>
    intro m h
    cases l with
    | nil =>
      rw [findBand, if_neg (not_le.mpr (h t (List.mem_cons_self t [])))]
    | cons u rest =>
      rw [findBand, if_neg (fun hc => absurd hc.1
        (not_le.mpr (h t (List.mem_cons_self t (u :: rest)))))]
      exact ih m (fun x hx => h x (List.mem_cons_of_mem t hx))

lemma foldl_min_eq_self : ∀ (l : List Int) (a : Int),
    (∀ b ∈ l, a ≤ b) → l.foldl min a = a := by
  intro l
  induction l with
  | nil => intro a _; rfl
  | cons x xs ih =>
    intro a h
    rw [List.foldl_cons, min_eq_left (h x (List.mem_cons_self x xs))]
    exact ih a (fun b hb => h b (List.mem_cons_of_mem x hb))

lemma sActive_eq_spec : ∀ (l : List PTier),
    l.Pairwise (fun a b => a.startQuantity ≤ b.startQuantity) →
    ∀ m : Int, sActive l m = specActiveStart l m := by
  intro l
  induction l with
  | nil => intro _ m; rfl
  | cons t l ih =>
    intro hs m
    have hs1 := (List.pairwise_cons.mp hs).1
    have hs2 := (List.pairwise_cons.mp hs).2
    cases l with
    | nil =>
      by_cases hle : t.startQuantity ≤ m
      · simp [sActive, findBand, hle, specActiveStart, List.max?]
      · simp [sActive, findBand, hle, not_le.mp hle, specActiveStart, List.min?]
    | cons u rest =>
      have htu : t.startQuantity ≤ u.startQuantity := hs1 u (List.mem_cons_self u rest)
      by_cases h1 : t.startQuantity ≤ m ∧ m < u.startQuantity
      · have hact : sActive (t :: u :: rest) m = Option.some t.startQuantity := by
          rw [sActive, findBand, if_pos h1]
        have hgt : ∀ x ∈ u :: rest, m < x.startQuantity := by
          intro x hx
          rcases List.mem_cons.mp hx with hx | hx
          · rw [hx]; exact h1.2
          · exact lt_of_lt_of_le h1.2 ((List.pairwise_cons.mp hs2).1 x hx)
        have hfilter : ((t :: u :: rest).map (fun x => x.startQuantity)).filter
            (fun s => decide (s ≤ m)) = [t.startQuantity] := by
          rw [List.map_cons, List.filter_cons_of_pos (by simpa using h1.1)]
          rw [List.filter_eq_nil_iff.mpr ?_]
          intro s hsm
          obtain ⟨x, hx, hxe⟩ := List.mem_map.mp hsm
          simp only [decide_eq_true_eq]
          rw [← hxe]
          exact not_le.mpr (hgt x hx)
        rw [hact, specActiveStart, hfilter]
        rfl
      · by_cases h2 : t.startQuantity ≤ m
        · have hum : u.startQuantity ≤ m := by
            by_contra hc
            exact h1 ⟨h2, not_le.mp hc⟩
          have hltb : sActive (t :: u :: rest) m = sActive (u :: rest) m := by
            rw [sActive, sActive, findBand, if_neg h1]
            cases hfb : findBand (u :: rest) m with
            | some s => rfl
            | none => simp [not_lt.mpr h2, not_lt.mpr hum]
          have hspec : specActiveStart (t :: u :: rest) m
              = specActiveStart (u :: rest) m := by
            rw [specActiveStart, specActiveStart]
            rw [List.map_cons, List.filter_cons_of_pos (by simpa using h2)]
            rw [show ((u :: rest).map (fun x => x.startQuantity)).filter
                  (fun s => decide (s ≤ m))
                = u.startQuantity :: ((rest.map (fun x => x.startQuantity)).filter
                  (fun s => decide (s ≤ m))) by
              rw [List.map_cons, List.filter_cons_of_pos (by simpa using hum)]]
            rw [List.max?_cons', List.max?_cons', List.foldl_cons, max_eq_right htu]
          rw [hltb, hspec]
          exact ih hs2 m
        · have hmt : m < t.startQuantity := not_le.mp h2
          have hall : ∀ x ∈ t :: u :: rest, m < x.startQuantity := by
            intro x hx
            rcases List.mem_cons.mp hx with hx | hx
            · rw [hx]; exact hmt
            · exact lt_of_lt_of_le hmt (hs1 x hx)
          have hact : sActive (t :: u :: rest) m = Option.some t.startQuantity := by
            rw [sActive, findBand_none_of_all_gt _ m hall]
            simp [hmt]
          have hfilter : ((t :: u :: rest).map (fun x => x.startQuantity)).filter
              (fun s => decide (s ≤ m)) = [] := by
            rw [List.filter_eq_nil_iff]
            intro s hsm
            obtain ⟨x, hx, hxe⟩ := List.mem_map.mp hsm
            simp only [decide_eq_true_eq]
            rw [← hxe]
            exact not_le.mpr (hall x hx)
          have hmin : ((t :: u :: rest).map (fun x => x.startQuantity)).min?
              = Option.some t.startQuantity := by
            rw [List.map_cons, List.min?_cons']
            congr 1
            apply foldl_min_eq_self
            intro b hb
            obtain ⟨x, hx, hxe⟩ := List.mem_map.mp hb
            rw [← hxe]
            exact hs1 x hx
          rw [hact, specActiveStart, hfilter, hmin]
          rfl

/-- C3: with a given minimum, the price-tier filter agrees with the
specification's description — keep exactly the sorted parseable tiers whose
`startQuantity` is at least the active tier's, the active tier being the one
whose band contains `minQty` (largest `startQuantity <= minQty`, or the
smallest tier when `minQty` lies below every tier), then drop tiers above
`maxQty`; and when `minQty` is below every tier's `startQuantity` the min
stage keeps every tier. -/
theorem c3_tier_filter_active :
    ∀ (raw : List RawTier) (m : Int) (maxQ : Option Int),
      filterPriceTiers raw (Option.some m) maxQ = specFilterPriceTiers raw m maxQ
      ∧ ((∀ t ∈ sortTiers (raw.filterMap parseTier), m < t.startQuantity) →
          minTierFilter (sortTiers (raw.filterMap parseTier)) (Option.some m)
            = sortTiers (raw.filterMap parseTier)) := by
  intro raw m maxQ
  constructor
  · rw [filterPriceTiers, specFilterPriceTiers]
    have : minTierFilter (sortTiers (raw.filterMap parseTier)) (Option.some m)
        = specKeptMin (sortTiers (raw.filterMap parseTier)) m := by
      rw [minTierFilter, specKeptMin,
        sActive_eq_spec _ (sortTiers_sorted _) m]
    rw [this]
  · intro hall
    cases hL : sortTiers (raw.filterMap parseTier) with
    | nil => rfl
    | cons t rest =>
      have hsorted := sortTiers_sorted (raw.filterMap parseTier)
      rw [hL] at hsorted
      have hallL : ∀ x ∈ t :: rest, m < x.startQuantity := by
        intro x hx
        exact hall x (by rw [hL]; exact hx)
      have hact : sActive (t :: rest) m = Option.some t.startQuantity := by
        rw [sActive, findBand_none_of_all_gt _ m hallL]
        simp [hallL t (List.mem_cons_self t rest)]
      rw [minTierFilter, hact]
      show List.filter (fun x => decide (t.startQuantity ≤ x.startQuantity)) (t :: rest)
        = t :: rest
      rw [List.filter_eq_self.mpr ?_]
      intro x hx
      simp only [decide_eq_true_eq]
      rcases List.mem_cons.mp hx with hx | hx
      · rw [hx]
      · exact (List.pairwise_cons.mp hsorted).1 x hx

/-- Witness for C3 at the spec's P2 data: tiers at 100/500/1000 with
`minQty = 50` keep all three (the min stage is the identity), and the full
filter agrees with the specification reading. -/
theorem c3_tier_filter_active_witness :
    (∀ t ∈ sortTiers (([⟨Option.some "100", Option.some "5"⟩,
          ⟨Option.some "500", Option.some "4"⟩,
          ⟨Option.some "1000", Option.some "3"⟩] : List RawTier).filterMap parseTier),
        (50 : Int) < t.startQuantity)
    ∧ minTierFilter (sortTiers (([⟨Option.some "100", Option.some "5"⟩,
          ⟨Option.some "500", Option.some "4"⟩,
          ⟨Option.some "1000", Option.some "3"⟩] : List RawTier).filterMap parseTier))
        (Option.some 50)
      = sortTiers (([⟨Option.some "100", Option.some "5"⟩,
          ⟨Option.some "500", Option.some "4"⟩,
          ⟨Option.some "1000", Option.some "3"⟩] : List RawTier).filterMap parseTier) :=
  ⟨by decide,
    (c3_tier_filter_active
      [⟨Option.some "100", Option.some "5"⟩, ⟨Option.some "500", Option.some "4"⟩,
        ⟨Option.some "1000", Option.some "3"⟩] 50 Option.none).2 (by decide)⟩

/-- C4 (counterexample): the filter output is not invariant under every
permutation of the input.  Two tiers sharing `startQuantity = 100` but with
different prices come back in input order (the sort is stable and no filter
applies), so the two orderings of the same multiset give different outputs. -/
theorem c4_permutation_cex :
    ([⟨Option.some "100", Option.some "5"⟩, ⟨Option.some "100", Option.some "4"⟩] :
        List RawTier).Perm
      [⟨Option.some "100", Option.some "4"⟩, ⟨Option.some "100", Option.some "5"⟩]
    ∧ filterPriceTiers
        [⟨Option.some "100", Option.some "5"⟩, ⟨Option.some "100", Option.some "4"⟩]
        Option.none Option.none
      ≠ filterPriceTiers
        [⟨Option.some "100", Option.some "4"⟩, ⟨Option.some "100", Option.some "5"⟩]
        Option.none Option.none :=
  ⟨List.Perm.swap _ _ _, by decide⟩

/-- C4 (amended): the filter output is always sorted ascending by
`startQuantity` and consists only of parseable tiers (unparseable ones are
dropped, never defaulted); and under the documented invariant that parseable
`startQuantity` values are distinct, the output is the same for any
permutation of the input. -/
theorem c4_tier_filter_invariants_amended :
    ∀ (l₁ l₂ : List RawTier) (minQ maxQ : Option Int),
      (filterPriceTiers l₁ minQ maxQ).Pairwise
        (fun a b => a.startQuantity ≤ b.startQuantity)
      ∧ (∀ t ∈ filterPriceTiers l₁ minQ maxQ, t ∈ l₁.filterMap parseTier)
      ∧ (l₁.Perm l₂ →
          ((l₁.filterMap parseTier).map (fun t => t.startQuantity)).Nodup →
          filterPriceTiers l₁ minQ maxQ = filterPriceTiers l₂ minQ maxQ) := by
  intro l₁ l₂ minQ maxQ
  refine ⟨?_, ?_, ?_⟩
  · exact (sortTiers_sorted _).sublist (filterPriceTiers_sublist_sorted l₁ minQ maxQ)
  · intro t ht
    exact (sortTiers_perm _).subset ((filterPriceTiers_sublist_sorted l₁ minQ maxQ).subset ht)
  · intro hperm hnodup
    have hp : (l₁.filterMap parseTier).Perm (l₂.filterMap parseTier) :=
      hperm.filterMap _
    have hper : (sortTiers (l₁.filterMap parseTier)).Perm
        (sortTiers (l₂.filterMap parseTier)) :=
      ((sortTiers_perm _).trans hp).trans (sortTiers_perm _).symm
    have hn1 : ((sortTiers (l₁.filterMap parseTier)).map
        (fun t => t.startQuantity)).Nodup :=
      (((sortTiers_perm (l₁.filterMap parseTier)).map
        (fun t => t.startQuantity)).nodup_iff).mpr hnodup
    have hn2 : ((sortTiers (l₂.filterMap parseTier)).map
        (fun t => t.startQuantity)).Nodup :=
      ((hper.map (fun t => t.startQuantity)).nodup_iff).mp hn1
    have hst1 : (sortTiers (l₁.filterMap parseTier)).Pairwise
        (fun a b => a.startQuantity < b.startQuantity) :=
      ((sortTiers_sorted _).and (List.pairwise_map.mp hn1)).imp
        (fun h => lt_of_le_of_ne h.1 h.2)
    have hst2 : (sortTiers (l₂.filterMap parseTier)).Pairwise
        (fun a b => a.startQuantity < b.startQuantity) :=
      ((sortTiers_sorted _).and (List.pairwise_map.mp hn2)).imp
        (fun h => lt_of_le_of_ne h.1 h.2)
    haveI : IsAntisymm PTier (fun a b => a.startQuantity < b.startQuantity) :=
      ⟨fun a b h1 h2 => absurd (h1.trans h2) (lt_irrefl _)⟩
    have hsort : sortTiers (l₁.filterMap parseTier)
        = sortTiers (l₂.filterMap parseTier) :=
      List.eq_of_perm_of_sorted hper hst1 hst2
    rw [filterPriceTiers, filterPriceTiers, hsort]

/-- Witness for C4's amended theorem: swapping two tiers with distinct
quantities 100 and 500 leaves the filter output unchanged. -/
theorem c4_tier_filter_invariants_amended_witness :
    (([⟨Option.some "100", Option.some "5"⟩, ⟨Option.some "500", Option.some "4"⟩] :
        List RawTier).Perm
      [⟨Option.some "500", Option.some "4"⟩, ⟨Option.some "100", Option.some "5"⟩]
      ∧ ((([⟨Option.some "100", Option.some "5"⟩,
            ⟨Option.some "500", Option.some "4"⟩] : List RawTier).filterMap
          parseTier).map (fun t => t.startQuantity)).Nodup)
    ∧ filterPriceTiers
        [⟨Option.some "100", Option.some "5"⟩, ⟨Option.some "500", Option.some "4"⟩]
        Option.none Option.none
      = filterPriceTiers
        [⟨Option.some "500", Option.some "4"⟩, ⟨Option.some "100", Option.some "5"⟩]
        Option.none Option.none :=
  ⟨⟨List.Perm.swap _ _ _, by decide⟩,
    (c4_tier_filter_invariants_amended
      [⟨Option.some "100", Option.some "5"⟩, ⟨Option.some "500", Option.some "4"⟩]
      [⟨Option.some "500", Option.some "4"⟩, ⟨Option.some "100", Option.some "5"⟩]
      Option.none Option.none).2.2 (List.Perm.swap _ _ _) (by decide)⟩
